import Mathlib

/-!
Verification of the gorma code-synthesis engine (writers.go, helpers.go,
generator sources) against its natural-language specification.

The development shallowly embeds the semantics of the code fragments that
the templates in writers.go emit:

* `coerceFragment` embeds the `coerceT` template: the parameter-coercion
  code generated for one attribute (scalar kinds boolean/integer/number,
  string/any pass-through, and arrays split on commas with recursive
  element coercion).
* `newContext` embeds the `ctxNewT` template: the generated context
  factory with required-header checks, the per-parameter loop guarded by
  `MustValidate` / `IsPathParam`, and the payload unmarshal step.
* `getOne`, `deleteRow`, `filterByParent`, `listByParent`, `oneByParent`
  embed the data-access methods emitted by the `userTypeT` template
  (One, Delete, FilterBy/ListBy/OneBy) over an explicit database-plus-cache
  state with an operation trace.
* `MergeResponses` embeds the response-map merge of the generator.

Raw wire values are modelled as `List Char` (the character data of Go
strings).  External collaborators (`strconv`, the goa error constructors,
gorm calls, the in-process cache) are modelled by explicit Lean functions
or by trace events; the goa error-chaining combinators are modelled as
list append, matching the specification's description of one chained
error value.
-/

/-- Character data of a Go string. -/
abbrev Str := List Char

/-- Attribute type kinds, mirroring the `design` package kind tags used by
the `coerceT` template (Kind 1 = Boolean, 2 = Integer, 3 = Number,
4 = String, 5 = Any, 6 = Array).  Object attributes never reach the
scalar coercion path (they go through the payload unmarshal templates). -/
inductive Kind where
  | boolean
  | integer
  | number
  | string
  | any
  | array (elem : Kind)
deriving DecidableEq, Repr

/-- Typed coerced values held by generated context fields. -/
inductive Value where
  | vBool (b : Bool)
  | vInt (n : Int)
  | vNum (q : ℚ)
  | vStr (s : Str)
  | vArr (vs : List Value)

/-- A generated context field: Go zero value (never assigned), a direct
assignment, or an address-of assignment (pointer representation). -/
inductive FieldVal where
  | unset
  | val (v : Value)
  | ptr (v : Value)

/-- The goa error taxonomy reachable from the generated constructors and
data-access objects. -/
inductive Err where
  | missingHeader (name : Str)
  | missingParam (name : Str)
  | invalidParamType (name raw expected : Str)
  | recordNotFound
  | payloadError (msg : Str)
deriving DecidableEq, Repr

/-- Models strconv.ParseBool: the exact literal set it accepts. -/
def parseBool (s : Str) : Option Bool :=
  if s ∈ [String.toList "1", String.toList "t", String.toList "T",
          String.toList "TRUE", String.toList "true", String.toList "True"] then
    some true
  else if s ∈ [String.toList "0", String.toList "f", String.toList "F",
               String.toList "FALSE", String.toList "false", String.toList "False"] then
    some false
  else
    none

/-- Numeric value of a nonempty all-digit run, none otherwise. -/
def digitsToNat (s : Str) : Option Nat :=
  if s = [] then none
  else if s.all Char.isDigit then
    some (s.foldl (fun acc c => acc * 10 + (c.toNat - 48)) 0)
  else none

/-- Largest value of Go's 64-bit int. -/
def intMax : Int := 2 ^ 63 - 1

/-- Models strconv.Atoi on a 64-bit platform: optional single sign,
then a nonempty digit run, failing on out-of-range values. -/
def atoi (s : Str) : Option Int :=
  match s with
  | '+' :: r => (digitsToNat r).bind fun n =>
      if (n : Int) ≤ intMax then some (n : Int) else none
  | '-' :: r => (digitsToNat r).bind fun n =>
      if (n : Int) ≤ intMax + 1 then some (-(n : Int)) else none
  | _ => (digitsToNat s).bind fun n =>
      if (n : Int) ≤ intMax then some (n : Int) else none

/-- Rational value of a digit run (zero when empty). -/
def digitsVal (s : Str) : ℚ :=
  s.foldl (fun acc c => acc * 10 + ((c.toNat - 48 : Nat) : ℚ)) 0

/-- Models the decimal forms accepted by strconv.ParseFloat 64
(optional sign, integer digits, optional fraction; at least one digit).
Exponent, hex-float and inf/NaN forms are outside the fragment of the
generator exercised here; values are represented exactly as rationals. -/
def parseFloat (s : Str) : Option ℚ :=
  let core : Str → Option ℚ := fun t =>
    let ip := t.takeWhile Char.isDigit
    let rest := t.dropWhile Char.isDigit
    match rest with
    | [] => if ip = [] then none else some (digitsVal ip)
    | '.' :: frac =>
        if frac.all Char.isDigit ∧ (ip ≠ [] ∨ frac ≠ []) then
          some (digitsVal ip + digitsVal frac / (10 : ℚ) ^ frac.length)
        else none
    | _ => none
  match s with
  | '+' :: t => core t
  | '-' :: t => (core t).map (fun q => -q)
  | _ => core s

/-- Models strings.Split(s, ",") exactly: splitting the empty string
yields the singleton list of the empty string. -/
def splitComma : Str → List Str
  | [] => [[]]
  | c :: rest =>
    if c = ',' then [] :: splitComma rest
    else
      match splitComma rest with
      | [] => [[c]]
      | s :: ss => (c :: s) :: ss

/-- Models strings.Join(ls, ","). -/
def joinComma : List Str → Str
  | [] => []
  | [s] => s
  | s :: s2 :: rest => s ++ ',' :: joinComma (s2 :: rest)

/-- Go zero value of each attribute kind. -/
def zeroValue : Kind → Value
  | .boolean => .vBool false
  | .integer => .vInt 0
  | .number => .vNum 0
  | .string => .vStr []
  | .any => .vStr []
  | .array _ => .vArr []

/-- Target assignment of the coercion fragment: plain assignment, or the
address-of step the template emits when the pointer policy is in force. -/
def mkField (pointer : Bool) (v : Value) : FieldVal :=
  if pointer then .ptr v else .val v

/-- Value read back from a coercion target slot: an unassigned slot holds
the kind's Go zero value (slices from make() start zeroed). -/
def fieldOrZero (k : Kind) : FieldVal → Value
  | .unset => zeroValue k
  | .val v => v
  | .ptr v => v

/-- The keyword the template bakes into invalid-parameter-type errors for
each parsed scalar kind ("boolean", "integer", "number"). -/
def kindKeyword : Kind → Str
  | .boolean => String.toList "boolean"
  | .integer => String.toList "integer"
  | .number => String.toList "number"
  | _ => []

/-- Result of executing one generated coercion fragment: the target
assignment performed (`unset` when the fragment left the target alone),
the errors the fragment chained onto the running error value, and the
trace of Coerce-template invocations as (attribute name, nestingDepth)
pairs, recording the recursive `add .Depth 1` element calls. -/
structure CoerceOut where
  field : FieldVal
  errs : List Err
  calls : List (Str × Nat)

/-- The fixed attribute name the template gives array elements. -/
def elemName : Str := String.toList "elem"

/-- Semantics of the code emitted by the `coerceT` template for one
attribute, by cases on the attribute kind exactly as the template
branches on `.Attribute.Type.Kind`:
boolean/integer/number parse guarded by the err2 success check with an
invalid-parameter-type error on failure; string/any direct assignment;
arrays split the raw value on "," and either assign the split directly
(string elements) or coerce each element recursively at depth+1 into a
zero-initialised slice, chaining each element's errors. -/
def coerceFragment : Kind → Str → Str → Bool → Nat → CoerceOut
  | .boolean, name, raw, pointer, d =>
      (match parseBool raw with
       | some b => ⟨mkField pointer (.vBool b), [], [(name, d)]⟩
       | none => ⟨.unset, [.invalidParamType name raw (String.toList "boolean")], [(name, d)]⟩)
  | .integer, name, raw, pointer, d =>
      (match atoi raw with
       | some n => ⟨mkField pointer (.vInt n), [], [(name, d)]⟩
       | none => ⟨.unset, [.invalidParamType name raw (String.toList "integer")], [(name, d)]⟩)
  | .number, name, raw, pointer, d =>
      (match parseFloat raw with
       | some q => ⟨mkField pointer (.vNum q), [], [(name, d)]⟩
       | none => ⟨.unset, [.invalidParamType name raw (String.toList "number")], [(name, d)]⟩)
  | .string, name, raw, pointer, d => ⟨mkField pointer (.vStr raw), [], [(name, d)]⟩
  | .any, name, raw, pointer, d => ⟨mkField pointer (.vStr raw), [], [(name, d)]⟩
  | .array ek, name, raw, _pointer, d =>
      let elems := splitComma raw
      if ek = Kind.string then
        ⟨.val (.vArr (elems.map Value.vStr)), [], [(name, d)]⟩
      else
        let outs := elems.map fun e => coerceFragment ek elemName e false (d + 1)
        ⟨.val (.vArr (outs.map fun o => fieldOrZero ek o.field)),
         (outs.map CoerceOut.errs).flatten,
         (name, d) :: (outs.map CoerceOut.calls).flatten⟩

/-- The parse attempt of each parsed scalar kind, as the template's
strconv calls produce it. -/
def parseScalar : Kind → Str → Option Value
  | .boolean, raw => (parseBool raw).map Value.vBool
  | .integer, raw => (atoi raw).map Value.vInt
  | .number, raw => (parseFloat raw).map Value.vNum
  | _, _ => none


/-- The parsed scalar kinds (template kind codes 1, 2 and 3). -/
def isParsedScalar : Kind → Prop
  | .boolean => True
  | .integer => True
  | .number => True
  | _ => False

/-- Primitive (non-composite) kinds, as design.IsPrimitive reports them. -/
def isPrimitive : Kind → Bool
  | .array _ => false
  | _ => true

/-- One declared path/query parameter of an action: its name, attribute
kind, whether the name is in the required set, and whether the context
field uses the optional pointer representation (IsPrimitivePointer). -/
structure ParamDef where
  name : Str
  kind : Kind
  required : Bool
  pointer : Bool

/-- The per-action inputs of the ctxNewT template that the claims touch:
the ordered parameter attributes, the route path-parameter lists, whether
the merged Params attribute is an Object, and the merged header names with
their required flags.  Validation-rule checkers emitted after a coercion
come from the external goa codegen package and are not modelled. -/
structure ActionData where
  params : List ParamDef
  routes : List (List Str)
  paramsObj : Bool
  headers : List (Str × Bool)

/-- Inner loop of ContextTemplateData.IsPathParam: walks the routes,
resetting the flag per route and stopping at the first route that does
not carry the parameter. -/
def isPathParamLoop (param : Str) : List (List Str) → Bool → Bool
  | [], pp => pp
  | r :: rs, _ => if param ∈ r then isPathParamLoop param rs true else false

/-- ContextTemplateData.IsPathParam: true when Params is an Object and the
parameter appears in every route of the action. -/
def isPathParam (paramsObj : Bool) (routes : List (List Str)) (param : Str) : Bool :=
  if paramsObj then isPathParamLoop param routes false else false

/-- ContextTemplateData.MustValidate: presence-checking code is generated
exactly for required parameters that are not path parameters. -/
def mustValidate (a : ActionData) (p : ParamDef) : Bool :=
  p.required && !(isPathParam a.paramsObj a.routes p.name)

/-- One iteration of the generated parameter loop for attribute `p`:
fetch the raw value; under MustValidate an empty raw value yields a
missing-parameter error and otherwise the coercion fragment runs; without
MustValidate the coercion only runs for a non-empty raw value. -/
def processParam (a : ActionData) (p : ParamDef) (get : Str → Str) : FieldVal × List Err :=
  let raw := get p.name
  if mustValidate a p then
    if raw = [] then (.unset, [.missingParam p.name])
    else
      let o := coerceFragment p.kind p.name raw p.pointer 2
      (o.field, o.errs)
  else
    if raw = [] then (.unset, [])
    else
      let o := coerceFragment p.kind p.name raw p.pointer 2
      (o.field, o.errs)

/-- The generated required-header presence checks: each required header
whose raw value is empty chains a missing-header error. -/
def headerCheck (headers : List (Str × Bool)) (getH : Str → Str) : List Err :=
  headers.foldl
    (fun es h => if h.2 then (if getH h.1 = [] then es ++ [.missingHeader h.1] else es) else es)
    []

/-- A generated context value: the typed parameter fields in declaration
order plus the optional decoded payload. -/
structure Ctx where
  fields : List (Str × FieldVal)
  payload : Option Value

/-- Semantics of the constructor emitted by the ctxNewT template.
Header checks seed the error chain; the parameter loop runs every
iteration threading the single chained error value; then, when a payload
is declared, the payload factory result is bound with `p, err := ...`,
which reassigns the function's `err` variable: a payload failure returns
a nil context with only that failure, and a payload success overwrites
the accumulated error with nil.  `payload` is `none` when the action
declares no payload, otherwise the unmarshal-and-validate outcome. -/
def newContext (a : ActionData) (get getH : Str → Str)
    (payload : Option (Except Err Value)) : Option Ctx × List Err :=
  let base := a.params.foldl
    (fun (acc : List (Str × FieldVal) × List Err) p =>
      let r := processParam a p get
      (acc.1 ++ [(p.name, r.1)], acc.2 ++ r.2))
    ([], headerCheck a.headers getH)
  match payload with
  | none => (some ⟨base.1, none⟩, base.2)
  | some (Except.error e) => (none, [e])
  | some (Except.ok v) => (some ⟨base.1, some v⟩, [])

/-- Go's int value of a generated non-pointer integer context field:
an unassigned field holds the zero value 0. -/
def goIntValue : FieldVal → Int
  | .val (.vInt n) => n
  | .ptr (.vInt n) => n
  | _ => 0

/-- A database row of the modelled resource: its integer primary key and
the value of its belongs-to foreign-key column. -/
structure Row where
  id : Int
  fk : Int
deriving DecidableEq, Repr

/-- The zero value a gorm Find leaves behind when no row matches. -/
def zeroRow : Row := ⟨0, 0⟩

/-- Models strconv.Itoa, the cache-key form of the primary key. -/
def itoa (n : Int) : Str := (toString n).toList

/-- Storage and cache operations performed by a generated data-access
method, in program order.  Cache operations launched with `go` appear in
the trace like the rest; their fire-and-forget timing is not modelled. -/
inductive Op where
  | cacheGet (key : Str)
  | cacheSet (key : Str) (r : Row)
  | cacheDel (key : Str)
  | dbFind (id : Int)
  | dbDelete (id : Int)
deriving DecidableEq, Repr

/-- First value bound to a key in an association list. -/
def lookupStr (m : List (Str × Row)) (k : Str) : Option Row :=
  match m with
  | [] => none
  | (k1, v) :: rest => if k1 = k then some v else lookupStr rest k

/-- Bind a key in an association list, replacing an existing entry. -/
def setStr (m : List (Str × Row)) (k : Str) (v : Row) : List (Str × Row) :=
  match m with
  | [] => [(k, v)]
  | (k1, v1) :: rest => if k1 = k then (k, v) :: rest else (k1, v1) :: setStr rest k v

/-- Remove a key from an association list. -/
def delStr (m : List (Str × Row)) (k : Str) : List (Str × Row) :=
  match m with
  | [] => []
  | (k1, v1) :: rest => if k1 = k then rest else (k1, v1) :: delStr rest k

/-- The state a generated XxxDB value acts on: the table rows and the
local go-cache entries. -/
structure DBState where
  rows : List Row
  cache : List (Str × Row)
deriving DecidableEq, Repr

/-- Models gorm Find(&obj, id): the first row with the primary key. -/
def findRow (rows : List Row) (id : Int) : Option Row :=
  rows.find? fun r => r.id = id

/-- Outcome of a generated single-row method: the object (zero valued on
a failed lookup), the returned error, the resulting state and the trace
of operations performed. -/
structure OpResult where
  value : Row
  err : Option Err
  st : DBState
  ops : List Op
deriving DecidableEq, Repr

/-- Semantics of the One method emitted by the userTypeT template for a
single-column primary key.  Cached variant: try the cache under
strconv.Itoa(id) first and return the hit without touching storage;
otherwise run the database lookup and then `go m.cache.Set(...)` with
whatever object the lookup produced.  Uncached variant: just the lookup. -/
def getOne (cached : Bool) (st : DBState) (id : Int) : OpResult :=
  if cached then
    match lookupStr st.cache (itoa id) with
    | some o => ⟨o, none, st, [.cacheGet (itoa id)]⟩
    | none =>
      let found := findRow st.rows id
      let obj := found.getD zeroRow
      ⟨obj, if found.isSome then none else some .recordNotFound,
       { st with cache := setStr st.cache (itoa id) obj },
       [.cacheGet (itoa id), .dbFind id, .cacheSet (itoa id) obj]⟩
  else
    let found := findRow st.rows id
    ⟨found.getD zeroRow, if found.isSome then none else some .recordNotFound,
     st, [.dbFind id]⟩

/-- Semantics of the Delete method emitted by the userTypeT template for a
single-column primary key.  `dbErr` is the error the Db.Delete call
returns (storage failures are opaque pass-throughs from gorm): a failure
is returned unmodified before any cache action; on success the row is
gone and, in the cached variant only, `go m.cache.Delete(...)` evicts the
entry. -/
def deleteRow (cached : Bool) (st : DBState) (id : Int) (dbErr : Option Err) :
    Option Err × DBState × List Op :=
  match dbErr with
  | some e => (some e, st, [.dbDelete id])
  | none =>
    let st1 : DBState := { st with rows := st.rows.filter fun r => r.id ≠ id }
    if cached then
      (none, { st1 with cache := delStr st1.cache (itoa id) },
       [.dbDelete id, .cacheDel (itoa id)])
    else
      (none, st1, [.dbDelete id])

/-- Semantics of the XxxFilterByParent scope emitted per BelongsTo
relationship: a Where on the foreign-key column for a positive parent id,
and the identity scope otherwise. -/
def filterByParent (parentid : Int) (rows : List Row) : List Row :=
  if parentid > 0 then rows.filter fun r => r.fk = parentid else rows

/-- Semantics of the ListByParent method: the filter scope applied to the
table before the Find-all. -/
def listByParent (st : DBState) (parentid : Int) : List Row :=
  filterByParent parentid st.rows

/-- Semantics of the OneByParent method: the cached variant consults the
cache under Itoa(id) first; the lookup itself runs Find(&obj, id) on the
scoped (filtered) table, and the cached variant then stores the result. -/
def oneByParent (cached : Bool) (st : DBState) (parentid id : Int) : OpResult :=
  if cached then
    match lookupStr st.cache (itoa id) with
    | some o => ⟨o, none, st, [.cacheGet (itoa id)]⟩
    | none =>
      let found := findRow (filterByParent parentid st.rows) id
      let obj := found.getD zeroRow
      ⟨obj, if found.isSome then none else some .recordNotFound,
       { st with cache := setStr st.cache (itoa id) obj },
       [.cacheGet (itoa id), .dbFind id, .cacheSet (itoa id) obj]⟩
  else
    let found := findRow (filterByParent parentid st.rows) id
    ⟨found.getD zeroRow, if found.isSome then none else some .recordNotFound,
     st, [.dbFind id]⟩

/-- First binding of a key in a generic association list (Go map read). -/
def mapGet {V : Type} (m : List (Str × V)) (k : Str) : Option V :=
  match m with
  | [] => none
  | (k1, v) :: rest => if k1 = k then some v else mapGet rest k

/-- Go map assignment m[k] = v on an association-list representation. -/
def mapSet {V : Type} (m : List (Str × V)) (k : Str) (v : V) : List (Str × V) :=
  match m with
  | [] => [(k, v)]
  | (k1, v1) :: rest => if k1 = k then (k, v) :: rest else (k1, v1) :: mapSet rest k v

/-- Read through a possibly-nil response map. -/
def optGet {V : Type} (m : Option (List (Str × V))) (k : Str) : Option V :=
  match m with
  | none => none
  | some mm => mapGet mm k

/-- MergeResponses from the generator source: nil arguments pass the
other map through; otherwise every entry of the second map is assigned
into the first. -/
def MergeResponses {V : Type} (l r : Option (List (Str × V))) :
    Option (List (Str × V)) :=
  match l with
  | none => r
  | some lm =>
    match r with
    | none => some lm
    | some rm => some (rm.foldl (fun acc kv => mapSet acc kv.1 kv.2) lm)

/-- Recognises the invalid-parameter-type errors, the only kind a
coercion fragment can chain. -/
def Err.isInvalidType : Err → Bool
  | .invalidParamType _ _ _ => true
  | _ => false

/-- The claim's reference semantics for a direct array decode: the
element coercion mapped over the original element strings (an element the
fragment leaves unassigned reads back as the kind's zero value). -/
def arrayDecodeDirect (k : Kind) (a : List Str) (d : Nat) : List Value :=
  a.map fun e => fieldOrZero k (coerceFragment k elemName e false d).field

theorem splitComma_no_comma (s : Str) (h : ',' ∉ s) : splitComma s = [s] := by
  induction s with
  | nil => rfl
  | cons c rest ih =>
    have hc : c ≠ ',' := fun hc => h (hc ▸ List.mem_cons_self c rest)
    have hr : ',' ∉ rest := fun hm => h (List.mem_cons_of_mem c hm)
    simp [splitComma, hc, ih hr]

theorem splitComma_append (s t : Str) (h : ',' ∉ s) :
    splitComma (s ++ ',' :: t) = s :: splitComma t := by
  induction s with
  | nil => simp [splitComma]
  | cons c rest ih =>
    have hc : c ≠ ',' := fun hc => h (hc ▸ List.mem_cons_self c rest)
    have hr : ',' ∉ rest := fun hm => h (List.mem_cons_of_mem c hm)
    simp [splitComma, hc, ih hr]

theorem joinComma_split (ls : List Str) (hne : ls ≠ [])
    (hcf : ∀ s ∈ ls, ',' ∉ s) : splitComma (joinComma ls) = ls := by
  induction ls with
  | nil => exact absurd rfl hne
  | cons s rest ih =>
    cases rest with
    | nil => exact splitComma_no_comma s (hcf s (List.mem_cons_self s []))
    | cons s2 rest2 =>
      have h1 : ',' ∉ s := hcf s (List.mem_cons_self _ _)
      have h2 : ∀ u ∈ s2 :: rest2, ',' ∉ u := fun u hu => hcf u (List.mem_cons_of_mem s hu)
      calc splitComma (joinComma (s :: s2 :: rest2))
          = splitComma (s ++ ',' :: joinComma (s2 :: rest2)) := rfl
        _ = s :: splitComma (joinComma (s2 :: rest2)) := splitComma_append _ _ h1
        _ = s :: s2 :: rest2 := by rw [ih (by simp) h2]

theorem coerceFragment_calls_head (k : Kind) (name raw : Str) (pointer : Bool) (d : Nat) :
    (coerceFragment k name raw pointer d).calls.head? = some (name, d) := by
  cases k with
  | boolean => cases h : parseBool raw <;> simp [coerceFragment, h]
  | integer => cases h : atoi raw <;> simp [coerceFragment, h]
  | number => cases h : parseFloat raw <;> simp [coerceFragment, h]
  | string => rfl
  | any => rfl
  | array ek => by_cases h : ek = Kind.string <;> simp [coerceFragment, h]

theorem coerceFragment_errs_invalid (k : Kind) :
    ∀ (name raw : Str) (pointer : Bool) (d : Nat),
      ∀ e ∈ (coerceFragment k name raw pointer d).errs, e.isInvalidType = true := by
  induction k with
  | boolean =>
    intro name raw pointer d e he
    cases h : parseBool raw <;> simp [coerceFragment, h] at he
    simp [he, Err.isInvalidType]
  | integer =>
    intro name raw pointer d e he
    cases h : atoi raw <;> simp [coerceFragment, h] at he
    simp [he, Err.isInvalidType]
  | number =>
    intro name raw pointer d e he
    cases h : parseFloat raw <;> simp [coerceFragment, h] at he
    simp [he, Err.isInvalidType]
  | string => intro name raw pointer d e he; simp [coerceFragment] at he
  | any => intro name raw pointer d e he; simp [coerceFragment] at he
  | array ek ih =>
    intro name raw pointer d e he
    by_cases h : ek = Kind.string
    · simp [coerceFragment, h] at he
    · simp only [coerceFragment, if_neg h] at he
      rw [List.mem_flatten] at he
      obtain ⟨l, hl, hel⟩ := he
      rw [List.mem_map] at hl
      obtain ⟨o, ho, rfl⟩ := hl
      rw [List.mem_map] at ho
      obtain ⟨s, _, rfl⟩ := ho
      exact ih elemName s false (d + 1) e hel

theorem params_foldl (a : ActionData) (get : Str → Str) :
    ∀ (ps : List ParamDef) (f0 : List (Str × FieldVal)) (e0 : List Err),
      ps.foldl
        (fun (acc : List (Str × FieldVal) × List Err) p =>
          let r := processParam a p get
          (acc.1 ++ [(p.name, r.1)], acc.2 ++ r.2))
        (f0, e0)
      = (f0 ++ ps.map fun p => (p.name, (processParam a p get).1),
         e0 ++ (ps.map fun p => (processParam a p get).2).flatten) := by
  intro ps
  induction ps with
  | nil => intro f0 e0; simp
  | cons p rest ih =>
    intro f0 e0
    simp only [List.foldl_cons, List.map_cons, List.flatten_cons, ih]
    simp

theorem mapGet_mapSet {V : Type} (m : List (Str × V)) (k k' : Str) (v : V) :
    mapGet (mapSet m k v) k' = if k = k' then some v else mapGet m k' := by
  induction m with
  | nil => simp [mapSet, mapGet]
  | cons kv rest ih =>
    obtain ⟨k1, v1⟩ := kv
    by_cases h : k1 = k
    · subst h
      simp only [mapSet, if_pos rfl, mapGet]
      by_cases h2 : k1 = k' <;> simp [h2]
    · simp only [mapSet, if_neg h, mapGet, ih]
      by_cases h2 : k1 = k'
      · subst h2
        have hne : ¬k = k1 := fun hh => h hh.symm
        simp [hne]
      · simp [h2]

theorem mapGet_not_mem {V : Type} (m : List (Str × V)) (k : Str)
    (h : k ∉ m.map Prod.fst) : mapGet m k = none := by
  induction m with
  | nil => rfl
  | cons kv rest ih =>
    obtain ⟨k1, v1⟩ := kv
    simp only [List.map_cons, List.mem_cons] at h
    push_neg at h
    have hne : ¬k1 = k := fun hh => h.1 hh.symm
    simp [mapGet, hne, ih h.2]

theorem foldl_mapSet_get {V : Type} :
    ∀ (rm lm : List (Str × V)) (k : Str), (rm.map Prod.fst).Nodup →
      mapGet (rm.foldl (fun acc kv => mapSet acc kv.1 kv.2) lm) k
        = match mapGet rm k with
          | some v => some v
          | none => mapGet lm k := by
  intro rm
  induction rm with
  | nil => intro lm k _; rfl
  | cons kv rest ih =>
    intro lm k hnd
    obtain ⟨k1, v1⟩ := kv
    simp only [List.map_cons, List.nodup_cons] at hnd
    simp only [List.foldl_cons]
    rw [ih _ k hnd.2]
    by_cases h : k1 = k
    · subst h
      rw [mapGet_not_mem rest k1 hnd.1]
      simp [mapGet, mapGet_mapSet]
    · simp [mapGet, h, mapGet_mapSet]

/-- C1: for every parsed scalar attribute kind (Boolean, Integer, Number)
the coercion fragment attempts the kind's parse guarded by a success
check; on success the typed value is assigned to the target, wrapped in
an address-of step when the pointer policy requires it; on failure it
chains exactly one invalid-parameter-type error carrying the attribute
name, the raw value and the expected kind keyword, leaving the target
unassigned (so the context field keeps its zero value).  In particular,
for the required integer attribute count, raw "42" constructs a context
whose count field is 42 with no error, and raw "abc" yields
InvalidFieldType("count", "abc", "integer") with the field at zero. -/
theorem c1_scalar_coercion :
    (∀ (k : Kind) (name raw : Str) (pointer : Bool) (d : Nat), isParsedScalar k →
      (∀ v, parseScalar k raw = some v →
          coerceFragment k name raw pointer d = ⟨mkField pointer v, [], [(name, d)]⟩)
      ∧ (parseScalar k raw = none →
          coerceFragment k name raw pointer d =
            ⟨.unset, [.invalidParamType name raw (kindKeyword k)], [(name, d)]⟩))
    ∧ newContext ⟨[⟨String.toList "count", .integer, true, false⟩], [], true, []⟩
        (fun _ => String.toList "42") (fun _ => []) none
      = (some ⟨[(String.toList "count", .val (.vInt 42))], none⟩, [])
    ∧ newContext ⟨[⟨String.toList "count", .integer, true, false⟩], [], true, []⟩
        (fun _ => String.toList "abc") (fun _ => []) none
      = (some ⟨[(String.toList "count", .unset)], none⟩,
         [.invalidParamType (String.toList "count") (String.toList "abc")
            (String.toList "integer")])
    ∧ goIntValue (.val (.vInt 42)) = 42 ∧ goIntValue .unset = 0 := by
  refine ⟨?_, rfl, rfl, rfl, rfl⟩
  intro k name raw pointer d hk
  cases k with
  | boolean =>
    constructor
    · intro v hv
      cases h : parseBool raw with
      | none => simp [parseScalar, h] at hv
      | some b =>
        simp [parseScalar, h] at hv
        subst hv
        simp [coerceFragment, h]
    · intro hv
      cases h : parseBool raw with
      | some b => simp [parseScalar, h] at hv
      | none => simp [coerceFragment, h, kindKeyword]
  | integer =>
    constructor
    · intro v hv
      cases h : atoi raw with
      | none => simp [parseScalar, h] at hv
      | some n =>
        simp [parseScalar, h] at hv
        subst hv
        simp [coerceFragment, h]
    · intro hv
      cases h : atoi raw with
      | some n => simp [parseScalar, h] at hv
      | none => simp [coerceFragment, h, kindKeyword]
  | number =>
    constructor
    · intro v hv
      cases h : parseFloat raw with
      | none => simp [parseScalar, h] at hv
      | some q =>
        simp [parseScalar, h] at hv
        subst hv
        simp [coerceFragment, h]
    · intro hv
      cases h : parseFloat raw with
      | some q => simp [parseScalar, h] at hv
      | none => simp [coerceFragment, h, kindKeyword]
  | string => simp [isParsedScalar] at hk
  | any => simp [isParsedScalar] at hk
  | array ek => simp [isParsedScalar] at hk

/-- Witness for C1: the universal part applied to the Integer kind at the
concrete inputs of scenario A. -/
theorem c1_scalar_coercion_witness :
    isParsedScalar .integer
    ∧ coerceFragment .integer (String.toList "count") (String.toList "42") false 2
        = ⟨mkField false (.vInt 42), [], [(String.toList "count", 2)]⟩
    ∧ coerceFragment .integer (String.toList "count") (String.toList "abc") false 2
        = ⟨.unset, [.invalidParamType (String.toList "count") (String.toList "abc")
            (kindKeyword .integer)], [(String.toList "count", 2)]⟩ :=
  ⟨trivial,
   (c1_scalar_coercion.1 .integer (String.toList "count") (String.toList "42")
      false 2 trivial).1 (.vInt 42) rfl,
   (c1_scalar_coercion.1 .integer (String.toList "count") (String.toList "abc")
      false 2 trivial).2 rfl⟩

/-- C2 (amended): for a cached resource the generated One consults the
cache keyed by strconv.Itoa of the primary key and a hit returns the
cached value with no storage operation and no state change; on a miss it
performs exactly one single-row lookup and then stores the looked-up
object in the cache asynchronously regardless of whether the lookup
succeeded (a failed lookup caches the zero value); with caching disabled
the operation trace is the bare lookup and the state is untouched. -/
theorem c2_fetch_one_cache :
    (∀ (st : DBState) (id : Int) (o : Row), lookupStr st.cache (itoa id) = some o →
        getOne true st id = ⟨o, none, st, [.cacheGet (itoa id)]⟩)
    ∧ (∀ (st : DBState) (id : Int), lookupStr st.cache (itoa id) = none →
        (getOne true st id).ops
            = [.cacheGet (itoa id), .dbFind id,
               .cacheSet (itoa id) ((findRow st.rows id).getD zeroRow)]
        ∧ (getOne true st id).value = (findRow st.rows id).getD zeroRow
        ∧ (getOne true st id).st.cache
            = setStr st.cache (itoa id) ((findRow st.rows id).getD zeroRow))
    ∧ (∀ (st : DBState) (id : Int),
        (getOne false st id).ops = [.dbFind id] ∧ (getOne false st id).st = st) := by
  refine ⟨?_, ?_, ?_⟩
  · intro st id o h
    simp [getOne, h]
  · intro st id h
    refine ⟨?_, ?_, ?_⟩ <;> simp [getOne, h]
  · intro st id
    exact ⟨rfl, rfl⟩

/-- Witness for C2: a cache hit on key "7" short-circuits storage, and a
miss against an empty table still traces a cache store. -/
theorem c2_fetch_one_cache_witness :
    lookupStr [(itoa 7, (⟨7, 5⟩ : Row))] (itoa 7) = some ⟨7, 5⟩
    ∧ getOne true ⟨[], [(itoa 7, ⟨7, 5⟩)]⟩ 7
        = ⟨⟨7, 5⟩, none, ⟨[], [(itoa 7, ⟨7, 5⟩)]⟩, [.cacheGet (itoa 7)]⟩
    ∧ (getOne true ⟨[], []⟩ 3).ops
        = [.cacheGet (itoa 3), .dbFind 3, .cacheSet (itoa 3) zeroRow] :=
  ⟨by decide,
   c2_fetch_one_cache.1 ⟨[], [(itoa 7, ⟨7, 5⟩)]⟩ 7 ⟨7, 5⟩ (by decide),
   (c2_fetch_one_cache.2.1 ⟨[], []⟩ 3 (by decide)).1⟩

/-- Counterexample for C2: on a cache miss whose database lookup fails
(no such row) the generated One still performs the asynchronous cache
store, so the store is not conditioned on a successful fetch. -/
theorem c2_fetch_one_cache_counterexample :
    (getOne true ⟨[], []⟩ 7).err = some .recordNotFound
    ∧ Op.cacheSet (itoa 7) zeroRow ∈ (getOne true ⟨[], []⟩ 7).ops := by
  constructor <;> decide

/-- C3 (amended): when the action declares no payload, the generated
constructor returns a (necessarily non-nil) context holding every
parameter's individually coerced field, and the returned error is the
header errors followed by each parameter's coercion and presence errors
chained in declaration order — so processing of later parameters is
unaffected by earlier failures.  (When a payload is declared the payload
step's `p, err :=` binding replaces the accumulated error: see the
counterexample.) -/
theorem c3_error_accumulation :
    ∀ (a : ActionData) (get getH : Str → Str),
      (newContext a get getH none).1
          = some ⟨a.params.map fun p => (p.name, (processParam a p get).1), none⟩
      ∧ (newContext a get getH none).2
          = headerCheck a.headers getH
              ++ (a.params.map fun p => (processParam a p get).2).flatten := by
  intro a get getH
  show (Prod.fst _ = _) ∧ (Prod.snd _ = _)
  simp only [newContext, params_foldl]
  simp

/-- Counterexample for C3: with a required parameter missing (so one
parameter error accumulated), a declared payload that fails makes the
constructor return a nil context carrying only the payload failure, and
a declared payload that succeeds discards the accumulated parameter
error entirely. -/
theorem c3_error_accumulation_counterexample :
    (newContext ⟨[⟨String.toList "count", .integer, true, false⟩], [], true, []⟩
        (fun _ => []) (fun _ => [])
        (some (Except.error (.payloadError (String.toList "bad"))))).1 = none
    ∧ (newContext ⟨[⟨String.toList "count", .integer, true, false⟩], [], true, []⟩
        (fun _ => []) (fun _ => [])
        (some (Except.ok (.vStr [])))).2 = []
    ∧ (processParam ⟨[⟨String.toList "count", .integer, true, false⟩], [], true, []⟩
        ⟨String.toList "count", .integer, true, false⟩ (fun _ => [])).2
        = [.missingParam (String.toList "count")] :=
  ⟨rfl, rfl, rfl⟩

/-- C4: a required parameter that is a path-template parameter never
contributes a missing-parameter error, even when its raw value is empty;
a required non-path parameter contributes a missing-parameter error
exactly when its raw value is empty; and for a path parameter of
primitive kind MustValidate is false, so the presence check is skipped. -/
theorem c4_path_param_presence :
    ∀ (a : ActionData) (p : ParamDef) (get : Str → Str),
      (p.required = true → isPathParam a.paramsObj a.routes p.name = true →
          Err.missingParam p.name ∉ (processParam a p get).2)
      ∧ (p.required = true → isPathParam a.paramsObj a.routes p.name = false →
          (Err.missingParam p.name ∈ (processParam a p get).2 ↔ get p.name = []))
      ∧ (isPathParam a.paramsObj a.routes p.name = true → isPrimitive p.kind = true →
          mustValidate a p = false) := by
  intro a p get
  refine ⟨?_, ?_, ?_⟩
  · intro hreq hpp
    have hmv : mustValidate a p = false := by simp [mustValidate, hpp]
    by_cases hr : get p.name = [] <;> simp [processParam, hmv, hr]
    intro hmem
    have := coerceFragment_errs_invalid p.kind p.name (get p.name) p.pointer 2 _ hmem
    simp [Err.isInvalidType] at this
  · intro hreq hpp
    have hmv : mustValidate a p = true := by simp [mustValidate, hreq, hpp]
    by_cases hr : get p.name = [] <;> simp [processParam, hmv, hr]
    intro hmem
    have := coerceFragment_errs_invalid p.kind p.name (get p.name) p.pointer 2 _ hmem
    simp [Err.isInvalidType] at this
  · intro hpp _
    simp [mustValidate, hpp]

/-- Witness for C4: parameter id appears in the single route, so despite
being required and having an empty raw value no missing-parameter error
arises and MustValidate is false; the same parameter off the route with
an empty raw value does produce the missing-parameter error. -/
theorem c4_path_param_presence_witness :
    Err.missingParam (String.toList "id")
        ∉ (processParam ⟨[], [[String.toList "id"]], true, []⟩
            ⟨String.toList "id", .integer, true, false⟩ (fun _ => [])).2
    ∧ mustValidate ⟨[], [[String.toList "id"]], true, []⟩
        ⟨String.toList "id", .integer, true, false⟩ = false
    ∧ (Err.missingParam (String.toList "id")
        ∈ (processParam ⟨[], [], true, []⟩
            ⟨String.toList "id", .integer, true, false⟩ (fun _ => [])).2) :=
  ⟨(c4_path_param_presence ⟨[], [[String.toList "id"]], true, []⟩
      ⟨String.toList "id", .integer, true, false⟩ (fun _ => [])).1 rfl (by decide),
   (c4_path_param_presence ⟨[], [[String.toList "id"]], true, []⟩
      ⟨String.toList "id", .integer, true, false⟩ (fun _ => [])).2.2 (by decide) rfl,
   ((c4_path_param_presence ⟨[], [], true, []⟩
      ⟨String.toList "id", .integer, true, false⟩ (fun _ => [])).2.1 rfl (by decide)).2 rfl⟩

/-- C5 (amended): for an Array attribute whose element kind is not
String, the fragment splits the raw value on the comma delimiter,
produces a sequence with one slot per sub-value (unparseable elements
read back as the zero value), recursively invokes the coercion compiler
per element at nestingDepth+1, and chains every element's
invalid-parameter-type error onto the fragment's error value — each
malformed element surfaces its own error, not only the first. -/
theorem c5_array_element_errors :
    ∀ (ek : Kind) (name raw : Str) (pointer : Bool) (d : Nat), ek ≠ Kind.string →
      coerceFragment (.array ek) name raw pointer d
        = (let outs := (splitComma raw).map fun e =>
             coerceFragment ek elemName e false (d + 1)
           ⟨.val (.vArr (outs.map fun o => fieldOrZero ek o.field)),
            (outs.map CoerceOut.errs).flatten,
            (name, d) :: (outs.map CoerceOut.calls).flatten⟩)
      ∧ (∀ e ∈ splitComma raw,
          (coerceFragment ek elemName e false (d + 1)).calls.head?
            = some (elemName, d + 1)) := by
  intro ek name raw pointer d hek
  constructor
  · simp [coerceFragment, hek]
  · intro e _
    exact coerceFragment_calls_head ek elemName e false (d + 1)

/-- Witness for C5: the integer-element array fragment on raw "1,x"
decodes slot 0 to 1, leaves slot 1 at zero, and chains the error of the
malformed element; both element invocations run at depth 3. -/
theorem c5_array_element_errors_witness :
    coerceFragment (.array .integer) (String.toList "param") (String.toList "1,x") false 2
      = (let outs := (splitComma (String.toList "1,x")).map fun e =>
           coerceFragment .integer elemName e false 3
         ⟨.val (.vArr (outs.map fun o => fieldOrZero .integer o.field)),
          (outs.map CoerceOut.errs).flatten,
          (String.toList "param", 2) :: (outs.map CoerceOut.calls).flatten⟩) :=
  (c5_array_element_errors .integer (String.toList "param") (String.toList "1,x")
     false 2 (by decide)).1

/-- Counterexample for C5: raw "a,b" for an integer-element array chains
two invalid-parameter-type errors (one per malformed element), so the
fragment's error is not the first element-level error alone. -/
theorem c5_array_element_errors_counterexample :
    (coerceFragment (.array .integer) (String.toList "param") (String.toList "a,b")
        false 2).errs
      = [.invalidParamType elemName (String.toList "a") (String.toList "integer"),
         .invalidParamType elemName (String.toList "b") (String.toList "integer")]
    ∧ (coerceFragment (.array .integer) (String.toList "param") (String.toList "a,b")
        false 2).errs
      ≠ [.invalidParamType elemName (String.toList "a") (String.toList "integer")] := by
  constructor <;> decide

/-- C6 (amended): for an Array(T) attribute with scalar element kind T,
whenever the element list is nonempty and no element contains the comma
delimiter, coercing the join equals the direct elementwise decode:
coerce(join(a, ",")) = map(coerce, a); string elements are assigned
directly from the split.  (The empty list and comma-containing elements
break the split/join inversion: see the counterexample.) -/
theorem c6_join_split_decode :
    ∀ (k : Kind) (name : Str) (d : Nat) (a : List Str),
      isPrimitive k = true → a ≠ [] → (∀ s ∈ a, ',' ∉ s) →
      (coerceFragment (.array k) name (joinComma a) false d).field
        = .val (.vArr (arrayDecodeDirect k a (d + 1))) := by
  intro k name d a hprim hne hcf
  have hsplit := joinComma_split a hne hcf
  by_cases hk : k = Kind.string
  · subst hk
    simp [coerceFragment, hsplit, arrayDecodeDirect, fieldOrZero, mkField]
  · simp [coerceFragment, hk, hsplit, arrayDecodeDirect]

/-- Witness for C6: joining ["1","2"] and coercing as an integer array
equals the direct decode of the two elements. -/
theorem c6_join_split_decode_witness :
    (coerceFragment (.array .integer) (String.toList "param")
        (joinComma [String.toList "1", String.toList "2"]) false 2).field
      = .val (.vArr (arrayDecodeDirect .integer
          [String.toList "1", String.toList "2"] 3)) :=
  c6_join_split_decode .integer (String.toList "param") 2
    [String.toList "1", String.toList "2"] (by decide) (by decide) (by decide)

/-- Counterexample for C6: the equation fails as universally stated.  For
the empty list, join gives "" and strings.Split returns one empty
element, so the coerced array has length one while the direct decode is
empty; and for the single string element "x,y" the split produces two
elements where the direct decode has one. -/
theorem c6_join_split_decode_counterexample :
    (coerceFragment (.array .string) (String.toList "param") (joinComma []) false 2).field
        ≠ .val (.vArr (arrayDecodeDirect .string [] 3))
    ∧ (coerceFragment (.array .string) (String.toList "param")
          (joinComma [String.toList "x,y"]) false 2).field
        ≠ .val (.vArr (arrayDecodeDirect .string [String.toList "x,y"] 3)) := by
  constructor <;> intro h <;>
    simp [coerceFragment, joinComma, splitComma, arrayDecodeDirect, fieldOrZero,
      mkField, elemName] at h

/-- C7: when the action declares a payload, a failing
unmarshal-and-validate result makes the generated constructor return
immediately with exactly that failure and a nil context — fail-fast,
with no payload (or any context) value delivered on this path. -/
theorem c7_payload_fail_fast :
    ∀ (a : ActionData) (get getH : Str → Str) (e : Err),
      newContext a get getH (some (Except.error e)) = (none, [e]) := by
  intro a get getH e
  rfl

/-- C8: the generated Delete returns a storage failure to its caller
unmodified with no cache eviction and no row change; on success with
caching enabled it removes the row and then asynchronously evicts the
Itoa-keyed cache entry; with caching disabled no cache eviction
operation is generated, as in scenario B's delete(7) against widgets. -/
theorem c8_delete_eviction :
    (∀ (cached : Bool) (st : DBState) (id : Int) (e : Err),
        deleteRow cached st id (some e) = (some e, st, [.dbDelete id]))
    ∧ (∀ (st : DBState) (id : Int),
        deleteRow true st id none
          = (none, ⟨st.rows.filter fun r => r.id ≠ id, delStr st.cache (itoa id)⟩,
             [.dbDelete id, .cacheDel (itoa id)]))
    ∧ (∀ (st : DBState) (id : Int),
        deleteRow false st id none
          = (none, ⟨st.rows.filter fun r => r.id ≠ id, st.cache⟩, [.dbDelete id]))
    ∧ deleteRow false ⟨[⟨7, 0⟩], []⟩ 7 none = (none, ⟨[], []⟩, [.dbDelete 7]) := by
  refine ⟨?_, ?_, ?_, by decide⟩
  · intro cached st id e; rfl
  · intro st id; rfl
  · intro st id; rfl

/-- C9: the per-BelongsTo filter restricts rows to the matching
foreign-key column for a positive parent id and is the identity for a
non-positive one; ListByParent and OneByParent apply that filter before
the base list/fetch logic; concretely, listByParent 3 keeps exactly the
rows with fk = 3 and listByParent 0 returns every row. -/
theorem c9_belongs_to_filter :
    (∀ (pid : Int) (rows : List Row) (r : Row), 0 < pid →
        (r ∈ filterByParent pid rows ↔ r ∈ rows ∧ r.fk = pid))
    ∧ (∀ (pid : Int) (rows : List Row), pid ≤ 0 → filterByParent pid rows = rows)
    ∧ (∀ (st : DBState) (pid : Int), listByParent st pid = filterByParent pid st.rows)
    ∧ (∀ (st : DBState) (pid id : Int),
        (oneByParent false st pid id).value
          = (findRow (filterByParent pid st.rows) id).getD zeroRow)
    ∧ listByParent ⟨[⟨1, 3⟩, ⟨2, 4⟩, ⟨3, 3⟩], []⟩ 3 = [⟨1, 3⟩, ⟨3, 3⟩]
    ∧ listByParent ⟨[⟨1, 3⟩, ⟨2, 4⟩, ⟨3, 3⟩], []⟩ 0 = [⟨1, 3⟩, ⟨2, 4⟩, ⟨3, 3⟩] := by
  refine ⟨?_, ?_, ?_, ?_, by decide, by decide⟩
  · intro pid rows r hpid
    unfold filterByParent
    rw [if_pos hpid]
    simp [List.mem_filter]
  · intro pid rows hpid
    unfold filterByParent
    rw [if_neg (by omega)]
  · intro st pid; rfl
  · intro st pid id; rfl

/-- Witness for C9: the filter membership characterisation and identity
case applied at parent ids 3 and 0 over a concrete comment table. -/
theorem c9_belongs_to_filter_witness :
    ((0 : Int) < 3
      ∧ ((⟨1, 3⟩ : Row) ∈ filterByParent 3 [⟨1, 3⟩, ⟨2, 4⟩]
          ↔ (⟨1, 3⟩ : Row) ∈ [(⟨1, 3⟩ : Row), ⟨2, 4⟩] ∧ (⟨1, 3⟩ : Row).fk = 3))
    ∧ ((0 : Int) ≤ 0 ∧ filterByParent 0 [(⟨1, 3⟩ : Row), ⟨2, 4⟩] = [⟨1, 3⟩, ⟨2, 4⟩]) :=
  ⟨⟨by decide, c9_belongs_to_filter.1 3 [⟨1, 3⟩, ⟨2, 4⟩] ⟨1, 3⟩ (by decide)⟩,
   ⟨by decide, c9_belongs_to_filter.2.1 0 [⟨1, 3⟩, ⟨2, 4⟩] (by decide)⟩⟩

/-- C10: MergeResponses passes a nil argument through, and otherwise the
merged map answers every name present in the second map with the second
map's definition and every name present only in the first map with the
first map's definition (second argument wins on collision). -/
theorem c10_merge_responses :
    (∀ (V : Type) (r : Option (List (Str × V))), MergeResponses none r = r)
    ∧ (∀ (V : Type) (l : Option (List (Str × V))), MergeResponses l none = l)
    ∧ (∀ (V : Type) (lm rm : List (Str × V)) (k : Str) (v : V),
        (rm.map Prod.fst).Nodup → mapGet rm k = some v →
        optGet (MergeResponses (some lm) (some rm)) k = some v)
    ∧ (∀ (V : Type) (lm rm : List (Str × V)) (k : Str),
        (rm.map Prod.fst).Nodup → mapGet rm k = none →
        optGet (MergeResponses (some lm) (some rm)) k = mapGet lm k) := by
  refine ⟨?_, ?_, ?_, ?_⟩
  · intro V r; rfl
  · intro V l; cases l <;> rfl
  · intro V lm rm k v hnd hget
    show mapGet (rm.foldl (fun acc kv => mapSet acc kv.1 kv.2) lm) k = some v
    rw [foldl_mapSet_get rm lm k hnd, hget]
  · intro V lm rm k hnd hget
    show mapGet (rm.foldl (fun acc kv => mapSet acc kv.1 kv.2) lm) k = mapGet lm k
    rw [foldl_mapSet_get rm lm k hnd, hget]

/-- Witness for C10: merging two concrete response maps overrides the
colliding name "a" with the right map's definition and keeps the
left-only name "c". -/
theorem c10_merge_responses_witness :
    optGet (MergeResponses (some [(String.toList "a", 0), (String.toList "c", 3)])
        (some [(String.toList "a", 1), (String.toList "b", 2)])) (String.toList "a")
      = some 1
    ∧ optGet (MergeResponses (some [(String.toList "a", 0), (String.toList "c", 3)])
        (some [(String.toList "a", 1), (String.toList "b", 2)])) (String.toList "c")
      = mapGet [(String.toList "a", 0), (String.toList "c", 3)] (String.toList "c") :=
  ⟨c10_merge_responses.2.2.1 Nat [(String.toList "a", 0), (String.toList "c", 3)]
      [(String.toList "a", 1), (String.toList "b", 2)] (String.toList "a") 1
      (by decide) (by decide),
   c10_merge_responses.2.2.2 Nat [(String.toList "a", 0), (String.toList "c", 3)]
      [(String.toList "a", 1), (String.toList "b", 2)] (String.toList "c")
      (by decide) (by decide)⟩
